import Mathlib

/-!
# Verification of the ZFS zstd adapter (module/zstd/zstd.c)

Shallow embedding of the block-framing, level-mapping, pooled-allocator and
compress/decompress facade of the zstd adapter, together with proofs of the
specification claims about it.

The Zstandard codec itself is an external library; it is modelled as an
opaque record of encode/decode functions (`Codec`), and the properties its
documentation guarantees (output bounded by the destination capacity,
decompression inverting compression) appear as explicit hypotheses of the
theorems that need them.

Machine integers are modelled as `Nat`/`Int` with explicit reduction
modulo two to the power of the width at the points where the C code
truncates (the `uint32_t bufsize` store, `size_t` subtraction underflow).
Buffers are byte sequences; the source operand of decompression is a total
function `Nat -> Nat` standing for memory, so that reads past the valid
length `s_len` (which the C code can perform) stay expressible and
observable via the `srcReadHi` field of the result.
-/

/-! ## Level constants

`ZIO_COMPLEVEL_INHERIT` and `ZIO_COMPLEVEL_DEFAULT` are from
`include/sys/zio_compress.h`.  The numeric tags of `enum zio_zstd_levels`
are not under `src/`; they are modelled from the spec: the enumeration is
closed and append-only, with an inherit sentinel 0, positive levels whose
tags are numerically identical to the levels 1..19, then the fast levels
appended after a reserved gap (tags 103..123), and the default marker
denoting the system default positive level 3. -/

def ZIO_COMPLEVEL_INHERIT : Int := 0

def ZIO_COMPLEVEL_DEFAULT : Int := 255

def ZIO_ZSTDLVL_INHERIT : Int := 0

/-- Modelled from the spec: the distinguished default member of the level
enumeration denotes the system default positive level, historically 3. -/
def ZIO_ZSTDLVL_DEFAULT : Int := 3

/-- Modelled from the spec: the system default positive level constant
referenced by the adapter, historically 3. -/
def ZIO_ZSTD_LEVEL_DEFAULT : Int := 3

/-- Modelled from the spec: numeric tag of the first fast level; the fast
region is appended after the positive levels with a reserved gap. -/
def ZIO_ZSTDLVL_FAST_1 : Int := 103

/-- The static level map of `zstd.c` (`fastlevels`): pairs of
(codec cookie, logical level tag), in source order: the nineteen identity
rows for the positive levels, then the fast rows with negative cookies. -/
def fastlevels : List (Int × Int) :=
  [(1, 1), (2, 2), (3, 3), (4, 4), (5, 5), (6, 6), (7, 7), (8, 8), (9, 9),
   (10, 10), (11, 11), (12, 12), (13, 13), (14, 14), (15, 15), (16, 16),
   (17, 17), (18, 18), (19, 19),
   (-1, 103), (-2, 104), (-3, 105), (-4, 106), (-5, 107), (-6, 108),
   (-7, 109), (-8, 110), (-9, 111), (-10, 112),
   (-20, 113), (-30, 114), (-40, 115), (-50, 116), (-60, 117), (-70, 118),
   (-80, 119), (-90, 120), (-100, 121), (-500, 122), (-1000, 123)]

/-- Linear scan of the level map by cookie (first component). -/
def lookup_cookie : List (Int × Int) → Int → Option Int
  | [], _ => none
  | p :: rest, ck => if p.1 = ck then some p.2 else lookup_cookie rest ck

/-- Linear scan of the level map by level tag (second component). -/
def lookup_level : List (Int × Int) → Int → Option Int
  | [], _ => none
  | p :: rest, lvl => if p.2 = lvl then some p.1 else lookup_level rest lvl

/-- `zstd_cookie_to_enum`: map a codec cookie to the logical level tag; on a
miss the C code logs and returns `ZIO_ZSTD_LEVEL_DEFAULT`. -/
def zstd_cookie_to_enum (ck : Int) : Int :=
  match lookup_cookie fastlevels ck with
  | some lvl => lvl
  | none => ZIO_ZSTD_LEVEL_DEFAULT

/-- `zstd_enum_to_cookie`: map a logical level tag to the codec cookie; on a
miss the C code logs and returns the literal 3. -/
def zstd_enum_to_cookie (lvl : Int) : Int :=
  match lookup_level fastlevels lvl with
  | some ck => ck
  | none => 3

/-- The level tags present in the map (the mapped set). -/
def mappedLevels : List Int := fastlevels.map (fun p => p.2)

/-- Level arguments accepted by the compress entry point: a mapped level or
one of the two sentinels normalised to the default. -/
def validLevelArgs : List Int :=
  ZIO_ZSTDLVL_INHERIT :: ZIO_COMPLEVEL_DEFAULT :: mappedLevels

/-! ## Byte-level helpers -/

/-- View a byte list as memory: defined bytes, zero beyond the end. -/
def listMem (l : List Nat) : Nat → Nat := fun i => l.getD i 0

/-- Big-endian 4-byte encoding of a 32-bit value (`BE_32` store). -/
def be32 (n : Nat) : List Nat :=
  [n % 4294967296 / 16777216, n % 4294967296 / 65536 % 256,
   n % 4294967296 / 256 % 256, n % 4294967296 % 256]

/-- Big-endian 32-bit read at an offset of memory (`BE_IN32`). -/
def be32at (mem : Nat → Nat) (off : Nat) : Nat :=
  mem off % 256 * 16777216 + mem (off + 1) % 256 * 65536 +
    mem (off + 2) % 256 * 256 + mem (off + 3) % 256

/-- Reinterpret a 32-bit unsigned value as a signed `int32_t`. -/
def toInt32 (u : Nat) : Int :=
  if u < 2147483648 then (u : Int) else (u : Int) - 4294967296

/-- The 32-bit unsigned bit pattern of a signed value (the store of an
`int32_t` through a `uint32_t` pointer). -/
def uint32_of_int (i : Int) : Nat := (i % 4294967296).toNat

/-- 64-bit `size_t` subtraction with wraparound. -/
def sub64 (a b : Nat) : Nat := (a + 18446744073709551616 - b) % 18446744073709551616

/-! ## The external codec surface -/

/-- The codec dependency surface used by the facade: context creation
success for each side, and the encode/decode primitives.  `comp` takes the
source bytes, the destination capacity and the level cookie, returning
`none` where `ZSTD_isError` would hold of the C return; `decomp` takes the
compressed payload and the destination capacity. -/
structure Codec where
  createCCtxOk : Bool
  createDCtxOk : Bool
  comp : List Nat → Nat → Int → Option (List Nat)
  decomp : List Nat → Nat → Option (List Nat)

/-- Documented codec guarantee: a successful compression writes at most the
destination capacity. -/
def Codec.CompBounded (c : Codec) : Prop :=
  ∀ src cap lvl out, c.comp src cap lvl = some out → out.length ≤ cap

/-- Documented codec guarantee: a compressed frame of any block-sized input
fits a 32-bit length (`ZSTD_compressBound` is far below it). -/
def Codec.Comp32 (c : Codec) : Prop :=
  ∀ src cap lvl out, c.comp src cap lvl = some out → out.length < 4294967296

/-- Documented codec guarantee: decompression inverts compression whenever
the destination capacity admits the original data. -/
def Codec.RoundTrip (c : Codec) : Prop :=
  ∀ src cap lvl out, c.comp src cap lvl = some out →
    ∀ dcap, src.length ≤ dcap → c.decomp out dcap = some src

/-! ## Compress / decompress facade -/

/-- Cookie normalisation at the head of `zstd_compress`: the two equality
rewrites against `ZIO_COMPLEVEL_DEFAULT` and `ZIO_ZSTDLVL_DEFAULT`. -/
def normalize_cookie (lc : Int) : Int :=
  let a := if lc = ZIO_COMPLEVEL_DEFAULT then ZIO_ZSTD_LEVEL_DEFAULT else lc
  if a = ZIO_ZSTDLVL_DEFAULT then ZIO_ZSTD_LEVEL_DEFAULT else a

/-- Result of `zstd_compress`: the returned size and the frame bytes
written to the destination (empty on the declined path, where the C code
leaves the destination unspecified and the caller ignores it). -/
structure CompressOut where
  ret : Nat
  frame : List Nat
deriving DecidableEq

/-- `zstd_compress(s_start, d_start, s_len, d_len, n)`: map the level to a
cookie, normalise the default markers, create a context (failure returns
`s_len`), run the codec at capacity `d_len - 8` in `size_t` arithmetic
(failure returns `s_len`), then write the 8-byte header: the compressed
size as a `uint32_t` big-endian at offset 0 and the level cookie bit
pattern big-endian at offset 4; return the compressed size plus 8. -/
def zstd_compress (c : Codec) (src : List Nat) (d_len : Nat) (n : Int) :
    CompressOut :=
  let levelcookie := normalize_cookie (zstd_enum_to_cookie n)
  if c.createCCtxOk = false then ⟨src.length, []⟩
  else
    match c.comp src (sub64 d_len 8) levelcookie with
    | none => ⟨src.length, []⟩
    | some out =>
        ⟨out.length + 8,
         be32 out.length ++ be32 (uint32_of_int levelcookie) ++ out⟩

/-- Result of `zstd_decompress_level`: return code (0 ok, 1 error), bytes
written to the destination, the level reported through the out pointer,
whether the codec was invoked, and the exclusive upper bound of source
indices read (8 for the header alone, `8 + bufsize` once the codec runs):
reads beyond `s_len` are out-of-bounds accesses of the C code. -/
structure DecompOut where
  ret : Nat
  dstOut : List Nat
  levelOut : Option Int
  codecInvoked : Bool
  srcReadHi : Nat
deriving DecidableEq

/-- `zstd_decompress_level(s_start, d_start, s_len, d_len, level)`: read the
stored compressed size and level cookie from the 8-byte header, map the
cookie to a logical level, reject when `bufsize + 4 > s_len` (the literal
check of the C code), create a decompression context (failure returns 1),
run the codec on the `bufsize` bytes at offset 8, and on success report
the level through the out pointer when it is non-null. -/
def zstd_decompress_level (c : Codec) (mem : Nat → Nat) (s_len d_len : Nat)
    (wantLevel : Bool) : DecompOut :=
  let bufsize := be32at mem 0
  let levelcookie := toInt32 (be32at mem 4)
  let zstdlevel := zstd_cookie_to_enum levelcookie
  if bufsize + 4 > s_len then ⟨1, [], none, false, 8⟩
  else if c.createDCtxOk = false then ⟨1, [], none, false, 8⟩
  else
    match c.decomp ((List.range bufsize).map (fun i => mem (8 + i))) d_len with
    | none => ⟨1, [], none, true, 8 + bufsize⟩
    | some out =>
        ⟨0, out, if wantLevel then some zstdlevel else none, true, 8 + bufsize⟩

/-- `zstd_decompress`: the facade entry with a null level pointer; the
trailing level argument of the C signature is ignored. -/
def zstd_decompress (c : Codec) (mem : Nat → Nat) (s_len d_len : Nat) :
    DecompOut :=
  zstd_decompress_level c mem s_len d_len false

/-- `zstd_get_level(s_start, s_len, level)`: read the cookie at offset 4,
map it to a logical level, and return 0.  The `s_len` parameter is accepted
and never inspected. -/
def zstd_get_level (mem : Nat → Nat) (s_len : Nat) : Nat × Int :=
  (0, zstd_cookie_to_enum (toInt32 (be32at mem 4)))

/-! ## Bounded allocator pool -/

/-- Pool timeout of `zstd.c`: `60 * 2` seconds. -/
def ZSTD_POOL_TIMEOUT : Nat := 60 * 2

/-- One `struct zstd_pool` slot: whether a buffer is present, its size, the
idle deadline, and whether the slot mutex is currently held by a consumer
(so that `mutex_tryenter` fails on it). -/
structure PoolSlot where
  mem : Bool
  size : Nat
  timeout : Nat
  locked : Bool
deriving DecidableEq

/-- A freshly zeroed slot as produced by `kmem_zalloc` in
`zstd_mempool_init`. -/
def emptySlot : PoolSlot := ⟨false, 0, 0, false⟩

/-- The first scan pass of `zstd_mempool_alloc` over the slot array: skip
slots whose try-lock fails; claim the first fitting occupied slot (refresh
its deadline to `now + ZSTD_POOL_TIMEOUT` and keep its mutex held); free any
other occupied slot whose deadline has passed.  The boolean accumulator is
the `mem` pointer of the C loop (whether a slot has been claimed); it is
returned along with the updated slot array. -/
def mempool_pass1 (now size : Nat) : List PoolSlot → Bool → Bool × List PoolSlot
  | [], found => (found, [])
  | s :: rest, found =>
    if s.locked = true then
      let r := mempool_pass1 now size rest found
      (r.1, s :: r.2)
    else if found = false ∧ s.mem = true ∧ size ≤ s.size then
      let r := mempool_pass1 now size rest true
      (r.1, { s with timeout := now + ZSTD_POOL_TIMEOUT, locked := true } :: r.2)
    else if s.mem = true ∧ now > s.timeout then
      let r := mempool_pass1 now size rest found
      (r.1, { s with mem := false, size := 0, timeout := 0 } :: r.2)
    else
      let r := mempool_pass1 now size rest found
      (r.1, s :: r.2)

/-- State established by `zstd_init` followed by `zstd_mempool_init`: the
pool count and the two zeroed slot arrays of that length. -/
structure ZstdInitState where
  poolCount : Nat
  cctxPool : List PoolSlot
  dctxPool : List PoolSlot
deriving DecidableEq

/-- `zstd_init`: set `pool_count` to `boot_ncpus * 4`, then
`zstd_mempool_init` allocates the two slot arrays of `ZSTD_POOL_MAX`
(which reads `pool_count`) zeroed slots. -/
def zstd_init_state (boot_ncpus : Nat) : ZstdInitState :=
  let pc := boot_ncpus * 4
  ⟨pc, List.replicate pc emptySlot, List.replicate pc emptySlot⟩

/-! ## Decompression allocator fallback -/

/-- `PAGESIZE` of the target platform. -/
def PAGESIZE : Nat := 4096

/-- Size of `struct zstd_kmem` (enum plus `size_t` plus pointer, LP64). -/
def sizeof_zstd_kmem : Nat := 24

/-- `P2ROUNDUP`: round up to a multiple of the (power-of-two) alignment. -/
def p2roundup (x a : Nat) : Nat := (x + a - 1) / a * a

/-- `enum zstd_kmem_type` discriminants. -/
def ZSTD_KMEM_DEFAULT : Nat := 1

def ZSTD_KMEM_POOL : Nat := 2

def ZSTD_KMEM_DCTX : Nat := 3

/-- The fallback reservation `struct zstd_fallback_mem`: only its capacity
matters to the claims. -/
structure FallbackMem where
  mem_size : Nat
deriving DecidableEq

/-- `create_fallback_mem`: record the size and zero-allocate the slab. -/
def create_fallback_mem (size : Nat) : FallbackMem := ⟨size⟩

/-- `zstd_meminit`: size the fallback slab by the codec estimate of a
decompression context plus the allocator header, rounded up to a page. -/
def zstd_meminit_fallback (estimateDCtxSize : Nat) : FallbackMem :=
  create_fallback_mem (p2roundup (estimateDCtxSize + sizeof_zstd_kmem) PAGESIZE)

/-- Provenance of the buffer handed out by the decompression allocator. -/
inductive AllocSource
  | pooled
  | heap
  | fallback
deriving DecidableEq

/-- Observable outcome of `zstd_dctx_alloc`: where the buffer came from and
the `kmem_type` and `kmem_size` fields written into its allocator header. -/
structure DctxAlloc where
  source : AllocSource
  kmemType : Nat
  kmemSize : Nat
deriving DecidableEq

/-- `zstd_dctx_alloc(opaque, size)`: try the pool (which stamps the header
as `ZSTD_KMEM_POOL` with the padded size), then a blocking heap allocation
stamped `ZSTD_KMEM_DEFAULT`, and as a last resort take the single fallback
slab under its mutex, stamped `ZSTD_KMEM_DCTX` — in every case writing
`kmem_size := sizeof (struct zstd_kmem) + size` with no comparison of that
request against the slab capacity. -/
def zstd_dctx_alloc (poolOk heapOk : Bool) (size : Nat) : DctxAlloc :=
  let nbytes := sizeof_zstd_kmem + size
  if poolOk then ⟨AllocSource.pooled, ZSTD_KMEM_POOL, nbytes⟩
  else if heapOk then ⟨AllocSource.heap, ZSTD_KMEM_DEFAULT, nbytes⟩
  else ⟨AllocSource.fallback, ZSTD_KMEM_DCTX, nbytes⟩

/-! ## Concrete codec instances (for witnesses and counterexamples)

These are not part of the adapter; they are lawful instantiations of the
external codec surface used to evaluate the facade on closed inputs. -/

/-- A codec that stores the input verbatim when it fits the destination
capacity, and reads it back.  It satisfies every documented guarantee. -/
def idCodec : Codec where
  createCCtxOk := true
  createDCtxOk := true
  comp := fun src cap _ =>
    if src.length ≤ cap ∧ src.length < 4294967296 then some src else none
  decomp := fun payload dcap =>
    if payload.length ≤ dcap then some payload else none

/-- A codec that truncates to the destination capacity: a bounded encoder
used where only the capacity bound matters. -/
def takeCodec : Codec where
  createCCtxOk := true
  createDCtxOk := true
  comp := fun src cap _ => some (src.take cap)
  decomp := fun payload _ => some payload

/-- A codec whose compression context creation fails. -/
def noCCtxCodec : Codec where
  createCCtxOk := false
  createDCtxOk := true
  comp := fun _ _ _ => none
  decomp := fun payload _ => some payload

/-! ## Helper lemmas -/

/-- Reading back the first header word of a frame yields the stored 32-bit
value. -/
theorem be32at_frame_zero (a b : Nat) (out : List Nat) :
    be32at (listMem (be32 a ++ be32 b ++ out)) 0 = a % 4294967296 := by
  simp only [be32, be32at, listMem, List.cons_append, List.nil_append,
    List.getD_cons_zero, List.getD_cons_succ]
  omega

/-- Reading back the second header word of a frame yields the stored 32-bit
value. -/
theorem be32at_frame_four (a b : Nat) (out : List Nat) :
    be32at (listMem (be32 a ++ be32 b ++ out)) 4 = b % 4294967296 := by
  simp only [be32, be32at, listMem, List.cons_append, List.nil_append,
    List.getD_cons_zero, List.getD_cons_succ]
  omega

/-- The unsigned bit pattern of a cookie is a 32-bit value. -/
theorem uint32_of_int_lt (i : Int) : uint32_of_int i < 4294967296 := by
  unfold uint32_of_int
  have h1 : (0 : Int) ≤ i % 4294967296 := Int.emod_nonneg i (by norm_num)
  have h2 : i % 4294967296 < 4294967296 :=
    Int.emod_lt_of_pos i (by norm_num)
  omega

/-- Reading each position of a list back through `getD` reproduces it. -/
theorem range_map_getD (l : List Nat) :
    (List.range l.length).map (fun i => l.getD i 0) = l := by
  apply List.ext_getElem
  · simp
  · intro i h1 h2
    simp only [List.getElem_map, List.getElem_range]
    exact List.getD_eq_getElem l 0 h2

/-- Extracting `out.length` bytes at offset 8 of a frame whose header is
8 bytes long yields the payload. -/
theorem extract_payload (hdr out : List Nat) (hh : hdr.length = 8) :
    (List.range out.length).map (fun i => listMem (hdr ++ out) (8 + i)) = out := by
  have hstep : ∀ i, listMem (hdr ++ out) (8 + i) = out.getD i 0 := by
    intro i
    unfold listMem
    rw [List.getD_append_right _ _ _ _ (by omega)]
    congr 1
    omega
  calc (List.range out.length).map (fun i => listMem (hdr ++ out) (8 + i))
      = (List.range out.length).map (fun i => out.getD i 0) := by
        apply List.map_congr_left
        intro i _
        exact hstep i
    _ = out := range_map_getD out

/-- The header built by `zstd_compress` is 8 bytes long. -/
theorem header_length (a b : Nat) : (be32 a ++ be32 b).length = 8 := by
  simp [be32]

/-- The full level pipeline of a compressed frame: normalised cookie,
stored as a 32-bit pattern, read back signed, and mapped to a level tag.
For every accepted level argument it reports the level itself when mapped
and the system default when the argument was a sentinel. -/
theorem report_of_validLevelArgs :
    ∀ n ∈ validLevelArgs,
      zstd_cookie_to_enum
          (toInt32 (uint32_of_int (normalize_cookie (zstd_enum_to_cookie n)))) =
        (if n ∈ mappedLevels then n else ZIO_ZSTD_LEVEL_DEFAULT) := by
  decide

/-- The level map round-trips on every mapped level (helper form shared by
several developments). -/
theorem level_map_roundtrip_all :
    ∀ x ∈ mappedLevels, zstd_cookie_to_enum (zstd_enum_to_cookie x) = x := by
  decide

/-- `idCodec` respects the capacity bound. -/
theorem idCodec_compBounded : idCodec.CompBounded := by
  intro src cap lvl out h
  simp only [idCodec] at h
  split at h
  · cases h
    omega
  · cases h

/-- `idCodec` output fits 32 bits. -/
theorem idCodec_comp32 : idCodec.Comp32 := by
  intro src cap lvl out h
  simp only [idCodec] at h
  split at h
  · cases h
    omega
  · cases h

/-- `idCodec` decompression inverts its compression. -/
theorem idCodec_roundTrip : idCodec.RoundTrip := by
  intro src cap lvl out h dcap hd
  simp only [idCodec] at h ⊢
  split at h
  · cases h
    simp [hd]
  · cases h

/-- `takeCodec` respects the capacity bound. -/
theorem takeCodec_compBounded : takeCodec.CompBounded := by
  intro src cap lvl out h
  simp only [takeCodec] at h
  cases h
  simpa using List.length_take_le cap src

/-- Length is preserved by the first pool pass. -/
theorem mempool_pass1_length (now size : Nat) (l : List PoolSlot) (f : Bool) :
    (mempool_pass1 now size l f).2.length = l.length := by
  induction l generalizing f with
  | nil => rfl
  | cons s rest ih =>
      unfold mempool_pass1
      split
      · simpa using ih f
      · split
        · simpa using ih true
        · split
          · simpa using ih f
          · simpa using ih f

/-- An unlocked occupied slot whose deadline has passed is, after the next
scan pass, either freed or claimed with its deadline refreshed and its
mutex held. -/
theorem mempool_pass1_expired (now size : Nat) (l : List PoolSlot) (f : Bool)
    (i : Nat) (hi : i < l.length)
    (hl : (l.getD i emptySlot).locked = false)
    (hm : (l.getD i emptySlot).mem = true)
    (ht : (l.getD i emptySlot).timeout < now) :
    ((mempool_pass1 now size l f).2.getD i emptySlot).mem = false ∨
      (((mempool_pass1 now size l f).2.getD i emptySlot).timeout =
          now + ZSTD_POOL_TIMEOUT ∧
        ((mempool_pass1 now size l f).2.getD i emptySlot).locked = true) := by
  induction l generalizing f i with
  | nil => simp at hi
  | cons s rest ih =>
      cases i with
      | zero =>
          simp only [List.getD_cons_zero] at hl hm ht
          unfold mempool_pass1
          rw [if_neg (by simp [hl])]
          by_cases hc : f = false ∧ s.mem = true ∧ size ≤ s.size
          · rw [if_pos hc]
            right
            constructor <;> rfl
          · rw [if_neg hc, if_pos ⟨hm, ht⟩]
            left
            rfl
      | succ j =>
          simp only [List.getD_cons_succ] at hl hm ht
          have hj : j < rest.length := by simpa using hi
          unfold mempool_pass1
          split
          · simpa using ih f j hj hl hm ht
          · split
            · simpa using ih true j hj hl hm ht
            · split
              · simpa using ih f j hj hl hm ht
              · simpa using ih f j hj hl hm ht

/-! ## Claims -/

/-- C6: for every logical level in the mapped set — every level other than
the INHERIT and DEFAULT markers — mapping it to a codec cookie and back is
the identity: the level map is a bijection on the mapped set. -/
theorem C6_level_map_bijective (x : Int) (hx : x ∈ mappedLevels) :
    zstd_cookie_to_enum (zstd_enum_to_cookie x) = x :=
  level_map_roundtrip_all x hx

/-- C6 witness: the round-trip at the fast-10 level tag. -/
theorem C6_witness :
    (112 : Int) ∈ mappedLevels ∧
      zstd_cookie_to_enum (zstd_enum_to_cookie 112) = 112 :=
  ⟨by decide, C6_level_map_bijective 112 (by decide)⟩

/-- C9: `zstd_get_level` never reports an error: it returns 0 for every
input and every `s_len`, its result does not depend on `s_len` at all
(no validation against the 8-byte header size), and an unmapped embedded
cookie yields the default level rather than a failure. -/
theorem C9_get_level_total (mem : Nat → Nat) (s_len s_len2 : Nat) :
    (zstd_get_level mem s_len).1 = 0 ∧
      zstd_get_level mem s_len = zstd_get_level mem s_len2 ∧
      (lookup_cookie fastlevels (toInt32 (be32at mem 4)) = none →
        (zstd_get_level mem s_len).2 = ZIO_ZSTD_LEVEL_DEFAULT) := by
  refine ⟨rfl, rfl, ?_⟩
  intro h
  simp [zstd_get_level, zstd_cookie_to_enum, h]

/-- C9 witness: an all-zero header (cookie 0 is unmapped) at two different
source lengths. -/
theorem C9_witness :
    lookup_cookie fastlevels
        (toInt32 (be32at (listMem [0, 0, 0, 0, 0, 0, 0, 0]) 4)) = none ∧
      (zstd_get_level (listMem [0, 0, 0, 0, 0, 0, 0, 0]) 8).2 =
        ZIO_ZSTD_LEVEL_DEFAULT :=
  ⟨by decide,
   (C9_get_level_total (listMem [0, 0, 0, 0, 0, 0, 0, 0]) 8 0).2.2 (by decide)⟩

/-- C10: when both the pool and the opportunistic heap allocation fail, the
decompression allocator hands out the single fallback slab for any
requested size, stamping `kmem_size` with the request; the slab capacity
was fixed at init to the page-rounded codec estimate, and no comparison of
the request against that capacity is made — the slab is returned even for
a request one byte larger than its capacity. -/
theorem C10_dctx_fallback_unchecked (size est : Nat) :
    (zstd_dctx_alloc false false size).source = AllocSource.fallback ∧
      (zstd_dctx_alloc false false size).kmemType = ZSTD_KMEM_DCTX ∧
      (zstd_dctx_alloc false false size).kmemSize = sizeof_zstd_kmem + size ∧
      (zstd_meminit_fallback est).mem_size =
        p2roundup (est + sizeof_zstd_kmem) PAGESIZE ∧
      (zstd_dctx_alloc false false
          ((zstd_meminit_fallback est).mem_size + 1)).source =
        AllocSource.fallback :=
  ⟨rfl, rfl, rfl, rfl, rfl⟩

/-- C3: `zstd_compress` is best-effort: if compression-context creation
fails or the codec reports an error, the return value is exactly `s_len`,
the store-raw sentinel. -/
theorem C3_compress_fail_sentinel (c : Codec) (src : List Nat) (d_len : Nat)
    (n : Int)
    (h : c.createCCtxOk = false ∨
      c.comp src (sub64 d_len 8)
          (normalize_cookie (zstd_enum_to_cookie n)) = none) :
    (zstd_compress c src d_len n).ret = src.length := by
  unfold zstd_compress
  rcases h with h | h
  · simp [h]
  · rcases hc : c.createCCtxOk with _ | _
    · simp
    · simp [h]

/-- C3 witness: a codec whose context creation fails declines a 4-byte
input by returning 4. -/
theorem C3_witness : (zstd_compress noCCtxCodec [1, 2, 3, 4] 4 3).ret = 4 :=
  C3_compress_fail_sentinel noCCtxCodec [1, 2, 3, 4] 4 3 (Or.inl rfl)

/-- C2 (code bug): a frame whose encoded payload length plus the 8-byte
header exceeds `s_len` is not always rejected: the C check is
`bufsize + 4 > s_len`, not `bufsize + 8 > s_len`.  On the concrete frame
with `bufsize = 8` and `s_len = 12` (so `payload_len + 8 = 16 > 12`), the
check passes, the codec is invoked, the read extends to source index 16 —
four bytes past the end of the buffer — and the call can even succeed and
write the destination. -/
theorem C2_size_check_bug :
    be32at (listMem [0, 0, 0, 8, 0, 0, 0, 3, 1, 2, 3, 4]) 0 = 8 ∧
      8 + 8 > 12 ∧
      (zstd_decompress idCodec
          (listMem [0, 0, 0, 8, 0, 0, 0, 3, 1, 2, 3, 4]) 12 100).codecInvoked =
        true ∧
      (zstd_decompress idCodec
          (listMem [0, 0, 0, 8, 0, 0, 0, 3, 1, 2, 3, 4]) 12 100).srcReadHi = 16 ∧
      (zstd_decompress idCodec
          (listMem [0, 0, 0, 8, 0, 0, 0, 3, 1, 2, 3, 4]) 12 100).ret = 0 := by
  decide

/-- C7 (code bug): the word at offset 4 of a successful compress output is
the big-endian two's-complement bit pattern of the signed level cookie,
not `version shifted left by 8 or-ed with the level tag`: compressing at
the fast-1 level (tag 103, cookie -1) stores `0xFFFFFFFF`, whose low byte
255 is not the level enum tag, and `zstd_compress` writes no version field
at all, contrary to the `zfs_zstdhdr_t` declaration and the README. -/
theorem C7_header_word_is_cookie_bug :
    zstd_enum_to_cookie ZIO_ZSTDLVL_FAST_1 = -1 ∧
      (zstd_compress takeCodec (List.replicate 20 7) 16 ZIO_ZSTDLVL_FAST_1).ret =
        16 ∧
      be32at
          (listMem
            (zstd_compress takeCodec (List.replicate 20 7) 16
                ZIO_ZSTDLVL_FAST_1).frame) 4 =
        4294967295 ∧
      (4294967295 : Nat) % 256 = 255 ∧
      ZIO_ZSTDLVL_FAST_1 ≠ (255 : Int) := by
  decide

/-- C5 counterexample: a frame whose embedded cookie 100 is not in the
level map is not treated as corrupt: with a valid size field and a codec
that decodes the payload, `zstd_decompress_level` returns 0 (success),
refuting the claim that the decoder fails on unmapped cookies. -/
theorem C5_cex :
    lookup_cookie fastlevels 100 = none ∧
      toInt32 (be32at (listMem [0, 0, 0, 4, 0, 0, 0, 100, 9, 9, 9, 9]) 4) =
        100 ∧
      (zstd_decompress_level idCodec
          (listMem [0, 0, 0, 4, 0, 0, 0, 100, 9, 9, 9, 9]) 12 12 true).ret =
        0 := by
  decide

/-- C5 (amended): an unmapped cookie never fails decompression.  The
return code is fully characterised by the size check, context creation and
the codec outcome — the cookie plays no part — and whenever a level is
reported for such a frame it is the default level, which
`zstd_cookie_to_enum` substituted for the unknown cookie. -/
theorem C5_unknown_cookie_no_fail (c : Codec) (mem : Nat → Nat)
    (s_len d_len : Nat) (w : Bool)
    (hck : lookup_cookie fastlevels (toInt32 (be32at mem 4)) = none) :
    ((zstd_decompress_level c mem s_len d_len w).ret = 0 ↔
      be32at mem 0 + 4 ≤ s_len ∧ c.createDCtxOk = true ∧
        (c.decomp ((List.range (be32at mem 0)).map (fun i => mem (8 + i)))
            d_len).isSome = true) ∧
    ((zstd_decompress_level c mem s_len d_len w).levelOut = none ∨
      (zstd_decompress_level c mem s_len d_len w).levelOut =
        some ZIO_ZSTD_LEVEL_DEFAULT) := by
  have hlvl : zstd_cookie_to_enum (toInt32 (be32at mem 4)) =
      ZIO_ZSTD_LEVEL_DEFAULT := by
    simp [zstd_cookie_to_enum, hck]
  simp only [zstd_decompress_level, hlvl]
  by_cases h1 : be32at mem 0 + 4 > s_len
  · simp [h1]
  · rcases hd : c.createDCtxOk with _ | _
    · simp [h1, hd]
    · cases hm : c.decomp
          ((List.range (be32at mem 0)).map (fun i => mem (8 + i))) d_len with
      | none => simp [h1, hd, hm]
      | some out => cases w <;> simp [h1, hd, hm] <;> omega

/-- C5 witness for the amended theorem: a frame with the unmapped cookie 0
reports either no level or the default level. -/
theorem C5_witness :
    (zstd_decompress_level idCodec
        (listMem [0, 0, 0, 4, 0, 0, 0, 0, 9, 9, 9, 9]) 12 12 true).levelOut =
      none ∨
    (zstd_decompress_level idCodec
        (listMem [0, 0, 0, 4, 0, 0, 0, 0, 9, 9, 9, 9]) 12 12 true).levelOut =
      some ZIO_ZSTD_LEVEL_DEFAULT :=
  (C5_unknown_cookie_no_fail idCodec
    (listMem [0, 0, 0, 4, 0, 0, 0, 0, 9, 9, 9, 9]) 12 12 true (by decide)).2

/-- C8 counterexample: after `zstd_init` on a single-CPU machine the pools
have 4 slots, not `max 16 (4 * cpu_count) = 16`: the assignment
`pool_count = boot_ncpus * 4` is unconditional and the static initial
value 16 holds only before init. -/
theorem C8_cex :
    (zstd_init_state 1).poolCount = 4 ∧
      (zstd_init_state 1).cctxPool.length = 4 ∧
      max 16 (4 * 1) = 16 ∧ (4 : Nat) ≠ 16 := by
  decide

/-- C8 (amended): after `zstd_init` each of the two context pools has
exactly `4 * cpu_count` slots, the slot timeout is 120 seconds, and an
unlocked pooled buffer idle beyond its deadline is, on the next scan pass,
either reclaimed (freed) or reused with its deadline refreshed to
`now + 120` and its mutex held. -/
theorem C8_pool_size_and_timeout (ncpus now size i : Nat) (l : List PoolSlot)
    (f : Bool) (hi : i < l.length)
    (hl : (l.getD i emptySlot).locked = false)
    (hm : (l.getD i emptySlot).mem = true)
    (ht : (l.getD i emptySlot).timeout < now) :
    (zstd_init_state ncpus).poolCount = 4 * ncpus ∧
      (zstd_init_state ncpus).cctxPool.length = 4 * ncpus ∧
      (zstd_init_state ncpus).dctxPool.length = 4 * ncpus ∧
      ZSTD_POOL_TIMEOUT = 120 ∧
      (((mempool_pass1 now size l f).2.getD i emptySlot).mem = false ∨
        (((mempool_pass1 now size l f).2.getD i emptySlot).timeout = now + 120 ∧
          ((mempool_pass1 now size l f).2.getD i emptySlot).locked = true)) := by
  refine ⟨by simp [zstd_init_state, Nat.mul_comm],
    by simp [zstd_init_state, Nat.mul_comm],
    by simp [zstd_init_state, Nat.mul_comm], rfl, ?_⟩
  exact mempool_pass1_expired now size l f i hi hl hm ht

/-- C8 witness: a pool of one occupied slot, idle past its deadline and not
fitting the request, is freed by the next scan. -/
theorem C8_witness :
    ((mempool_pass1 200 99 [⟨true, 10, 5, false⟩] false).2.getD 0
        emptySlot).mem = false ∨
      (((mempool_pass1 200 99 [⟨true, 10, 5, false⟩] false).2.getD 0
            emptySlot).timeout = 200 + 120 ∧
        ((mempool_pass1 200 99 [⟨true, 10, 5, false⟩] false).2.getD 0
            emptySlot).locked = true) :=
  (C8_pool_size_and_timeout 1 200 99 0 [⟨true, 10, 5, false⟩] false
    (by decide) (by decide) (by decide) (by decide)).2.2.2.2

/-- C4: for every successful compression (return value different from
`s_len`) the return value is the codec byte count plus 8, the frame is
exactly that long, the stored payload length reads back as the return
value minus 8, and `zstd_get_level` on the output succeeds (returns 0)
and reports the requested level — or the system default when the argument
was the INHERIT or DEFAULT sentinel. -/
theorem C4_compress_header_invariants (c : Codec) (src : List Nat)
    (d_len : Nat) (n : Int) (hb : c.CompBounded) (h8 : 8 ≤ d_len)
    (hdl : d_len ≤ src.length) (hs : src.length < 4294967296)
    (hn : n ∈ validLevelArgs)
    (hC : (zstd_compress c src d_len n).ret ≠ src.length) :
    (zstd_compress c src d_len n).frame.length =
        (zstd_compress c src d_len n).ret ∧
      8 ≤ (zstd_compress c src d_len n).ret ∧
      (∃ out,
        c.comp src (sub64 d_len 8)
            (normalize_cookie (zstd_enum_to_cookie n)) = some out ∧
          (zstd_compress c src d_len n).ret = out.length + 8) ∧
      be32at (listMem (zstd_compress c src d_len n).frame) 0 =
        (zstd_compress c src d_len n).ret - 8 ∧
      (zstd_get_level (listMem (zstd_compress c src d_len n).frame)
          (zstd_compress c src d_len n).ret).1 = 0 ∧
      (zstd_get_level (listMem (zstd_compress c src d_len n).frame)
          (zstd_compress c src d_len n).ret).2 =
        (if n ∈ mappedLevels then n else ZIO_ZSTD_LEVEL_DEFAULT) := by
  rcases hcc : c.createCCtxOk with _ | _
  · exact absurd (by simp [zstd_compress, hcc]) hC
  · cases hm : c.comp src (sub64 d_len 8)
        (normalize_cookie (zstd_enum_to_cookie n)) with
    | none => exact absurd (by simp [zstd_compress, hcc, hm]) hC
    | some out =>
        have hfr : zstd_compress c src d_len n =
            ⟨out.length + 8,
             be32 out.length ++
               be32 (uint32_of_int
                 (normalize_cookie (zstd_enum_to_cookie n))) ++ out⟩ := by
          simp [zstd_compress, hcc, hm]
        have hcap : sub64 d_len 8 = d_len - 8 := by
          unfold sub64
          omega
        have hlen : out.length < 4294967296 := by
          have h1 := hb src _ _ out hm
          rw [hcap] at h1
          omega
        rw [hfr]
        dsimp only
        refine ⟨?_, by omega, ⟨out, rfl, rfl⟩, ?_, rfl, ?_⟩
        · simp [be32]
        · rw [be32at_frame_zero, Nat.mod_eq_of_lt hlen]
          omega
        · simp only [zstd_get_level]
          rw [be32at_frame_four, Nat.mod_eq_of_lt (uint32_of_int_lt _)]
          exact report_of_validLevelArgs n hn

/-- C4 witness: a bounded codec compressing a 20-byte input into a 16-byte
destination at level 5; the reported level of the output is 5. -/
theorem C4_witness :
    (zstd_get_level
        (listMem (zstd_compress takeCodec (List.replicate 20 7) 16 5).frame)
        (zstd_compress takeCodec (List.replicate 20 7) 16 5).ret).2 =
      (if (5 : Int) ∈ mappedLevels then (5 : Int) else ZIO_ZSTD_LEVEL_DEFAULT) :=
  (C4_compress_header_invariants takeCodec (List.replicate 20 7) 16 5
    takeCodec_compBounded (by decide) (by decide) (by decide) (by decide)
    (by decide)).2.2.2.2.2

/-- C1: for every input `B` of length at least 1 and every valid level
argument, if `zstd_compress` with destination capacity `B.length` returns
a value different from `B.length` (compression accepted), then
`zstd_decompress` on the first `C` bytes of the output — given a codec
whose decode inverts its encode and a successfully created decompression
context — returns 0 and writes back exactly `B`. -/
theorem C1_compress_decompress_roundtrip (c : Codec) (B : List Nat) (n : Int)
    (h32 : c.Comp32) (hrt : c.RoundTrip) (hd : c.createDCtxOk = true)
    (hL : 1 ≤ B.length) (hn : n ∈ validLevelArgs)
    (hC : (zstd_compress c B B.length n).ret ≠ B.length) :
    (zstd_decompress c (listMem (zstd_compress c B B.length n).frame)
        (zstd_compress c B B.length n).ret B.length).ret = 0 ∧
      (zstd_decompress c (listMem (zstd_compress c B B.length n).frame)
          (zstd_compress c B B.length n).ret B.length).dstOut = B := by
  rcases hcc : c.createCCtxOk with _ | _
  · exact absurd (by simp [zstd_compress, hcc]) hC
  · cases hm : c.comp B (sub64 B.length 8)
        (normalize_cookie (zstd_enum_to_cookie n)) with
    | none => exact absurd (by simp [zstd_compress, hcc, hm]) hC
    | some out =>
        have hfr : zstd_compress c B B.length n =
            ⟨out.length + 8,
             be32 out.length ++
               be32 (uint32_of_int
                 (normalize_cookie (zstd_enum_to_cookie n))) ++ out⟩ := by
          simp [zstd_compress, hcc, hm]
        have hlen : out.length < 4294967296 := h32 B _ _ out hm
        have hb0 : be32at
            (listMem (be32 out.length ++
              be32 (uint32_of_int
                (normalize_cookie (zstd_enum_to_cookie n))) ++ out)) 0 =
            out.length := by
          rw [be32at_frame_zero]
          exact Nat.mod_eq_of_lt hlen
        have hpay : (List.range out.length).map
            (fun i => listMem (be32 out.length ++
              be32 (uint32_of_int
                (normalize_cookie (zstd_enum_to_cookie n))) ++ out) (8 + i)) =
            out := by
          have h1 := extract_payload
            (be32 out.length ++
              be32 (uint32_of_int (normalize_cookie (zstd_enum_to_cookie n))))
            out (header_length _ _)
          simpa [List.append_assoc] using h1
        have hdec : c.decomp out B.length = some B :=
          hrt B _ _ out hm B.length le_rfl
        rw [hfr]
        dsimp only
        unfold zstd_decompress
        simp only [zstd_decompress_level, hb0]
        rw [if_neg (by omega)]
        rw [if_neg (by simp [hd])]
        rw [hpay, hdec]
        exact ⟨rfl, rfl⟩

/-- C1 witness: a lawful codec round-trips the 3-byte input at level 3:
compression is accepted (returns 11, not 3) and decompression of the
11-byte frame returns 0 and reproduces the input. -/
theorem C1_witness :
    (zstd_compress idCodec [1, 2, 3] 3 3).ret ≠ 3 ∧
      (zstd_decompress idCodec
          (listMem (zstd_compress idCodec [1, 2, 3] 3 3).frame)
          (zstd_compress idCodec [1, 2, 3] 3 3).ret 3).ret = 0 ∧
      (zstd_decompress idCodec
          (listMem (zstd_compress idCodec [1, 2, 3] 3 3).frame)
          (zstd_compress idCodec [1, 2, 3] 3 3).ret 3).dstOut = [1, 2, 3] := by
  have h := C1_compress_decompress_roundtrip idCodec [1, 2, 3] 3
    idCodec_comp32 idCodec_roundTrip rfl (by decide) (by decide) (by decide)
  exact ⟨by decide, h.1, h.2⟩
